import Mathlib

/-!
Shallow embedding of the PuchMatch matchmaking engine (src/main.py) and the
interest matcher (src/matcher.py, src/config.py).

Python dictionaries are modelled as association lists in insertion order:
assigning to a fresh key appends at the tail, assigning to a present key
updates in place, and pop removes the entry.  The deque WaitingQueue is a
Lean list whose head is the front of the deque.
-/

/-- Lookup in an association list: the value of the first entry whose key
matches, as Python dict indexing does (keys are unique in a dict, so the
first entry is the entry). -/
def dlookup {α : Type} : List (String × α) → String → Option α
  | [], _ => none
  | (k₀, v) :: rest, k => if k₀ = k then some v else dlookup rest k

/-- Key membership in an association list (Python `k in d`). -/
def dmem {α : Type} (d : List (String × α)) (k : String) : Bool :=
  (dlookup d k).isSome

/-- Replace the value stored under key `k` by `f` of it, in place; entries
with other keys are untouched. -/
def dupdate {α : Type} (d : List (String × α)) (k : String) (f : α → α) : List (String × α) :=
  d.map (fun e => if e.1 = k then (e.1, f e.2) else e)

/-- Python `d[k] = v`: update in place when the key is present, else append
the new entry at the tail (dict insertion order). -/
def dinsert {α : Type} (d : List (String × α)) (k : String) (v : α) : List (String × α) :=
  if dmem d k then dupdate d k (fun _ => v) else d ++ [(k, v)]

/-- Python `d.pop(k, None)` restricted to its effect on the dict: remove the
entry with key `k` (no entry with that key remains). -/
def derase {α : Type} (d : List (String × α)) (k : String) : List (String × α) :=
  d.filter (fun e => e.1 != k)

/-- Python `s.strip()`: drop leading and trailing whitespace.  Written as
structural recursion over the character list so that it evaluates inside the
kernel. -/
def pytrim (s : String) : String :=
  String.mk (((s.data.dropWhile Char.isWhitespace).reverse.dropWhile Char.isWhitespace).reverse)

/-- One chat message.  `sender` models the Python key `from` (a keyword in
Lean); it is the sending user id or the literal string `system`. -/
structure Message where
  sender : String
  text : String
deriving Repr, DecidableEq

/-- Python `inbox.setdefault(k, []).append(m)`: append `m` to the list at key
`k`, creating the entry with `[m]` at the tail when the key is absent. -/
def inboxAppend (d : List (String × List Message)) (k : String) (m : Message) :
    List (String × List Message) :=
  if dmem d k then dupdate d k (fun msgs => msgs ++ [m]) else d ++ [(k, [m])]

/-- The in-memory storage of src/main.py: `waiting_queue` (deque, head at the
front), `active_pairs` (user → partner), `inbox` (user → pending messages),
and `meta` (user → nickname, the only field the code stores). -/
structure ServerState where
  waiting_queue : List String
  active_pairs : List (String × String)
  inbox : List (String × List Message)
  meta : List (String × String)
deriving Repr, DecidableEq

/-- The empty initial state: all four structures start empty. -/
def initialState : ServerState := ⟨[], [], [], []⟩

/-- Python `user_id[-4:]`: the last four characters, or the whole string when
it is shorter. -/
def lastFour (s : String) : String :=
  String.mk (s.data.drop (s.data.length - 4))

/-- Python `nickname or f"User-{user_id[-4:]}"`: the default is used both when
`nickname` is `None` and when it is the (falsy) empty string. -/
def nickOrDefault (nickname : Option String) (user_id : String) : String :=
  match nickname with
  | some n => if n = "" then "User-" ++ lastFour user_id else n
  | none => "User-" ++ lastFour user_id

/-- Helper `make_user_if_missing` of src/main.py: create an empty inbox and a
meta entry for the user when absent. -/
def make_user_if_missing (s : ServerState) (user_id : String) (nickname : Option String) :
    ServerState :=
  let s1 := if dmem s.inbox user_id then s
            else { s with inbox := s.inbox ++ [(user_id, [])] }
  if dmem s1.meta user_id then s1
  else { s1 with meta := s1.meta ++ [(user_id, nickOrDefault nickname user_id)] }

/-- Helper `pair_two` of src/main.py: record both directions of the pair and
ensure both users exist. -/
def pair_two (s : ServerState) (user_a user_b : String) : ServerState :=
  let s1 := { s with active_pairs := dinsert (dinsert s.active_pairs user_a user_b) user_b user_a }
  make_user_if_missing (make_user_if_missing s1 user_a none) user_b none

/-- The fixed disconnect text pushed to the inbox of a former partner. -/
def sysDisconnectText : String := "Your partner disconnected."

/-- The system disconnect message `{from: "system", text: "Your partner disconnected."}`. -/
def sysDisconnectMsg : Message := ⟨"system", sysDisconnectText⟩

/-- Helper `unpair` of src/main.py.  `partner = active_pairs.pop(user_id, None)`
then — only under `if partner:`, which is false for `None` AND for the empty
string — pop the reverse direction and notify the former partner. -/
def unpair (s : ServerState) (user_id : String) : ServerState :=
  match dlookup s.active_pairs user_id with
  | none => s
  | some partner =>
    let s1 := { s with active_pairs := derase s.active_pairs user_id }
    if partner = "" then s1
    else
      let s2 := { s1 with active_pairs := derase s1.active_pairs partner }
      { s2 with inbox := inboxAppend s2.inbox partner sysDisconnectMsg }

/-- Result of `join_chat`, one constructor per returned payload shape. -/
inductive JoinResult
  | alreadyMatched (partner_id : String)
  | waitingAt (queue_position : Nat)
  | waiting
  | matched (partner_id : String)
deriving Repr, DecidableEq

/-- Endpoint `join_chat` of src/main.py. -/
def join_chat (s : ServerState) (user_id : String) (nickname : Option String) :
    ServerState × JoinResult :=
  let s := make_user_if_missing s user_id nickname
  match dlookup s.active_pairs user_id with
  | some partner => (s, .alreadyMatched partner)
  | none =>
    if user_id ∈ s.waiting_queue then
      (s, .waitingAt (s.waiting_queue.indexOf user_id))
    else
      match s.waiting_queue with
      | [] => ({ s with waiting_queue := s.waiting_queue ++ [user_id] }, .waiting)
      | partner :: rest =>
        if partner = user_id then
          ({ s with waiting_queue := partner :: rest }, .waiting)
        else
          (pair_two { s with waiting_queue := rest } user_id partner, .matched partner)

/-- The two failure modes of `send_message`: HTTP 400 "Empty message"
(InvalidInput) and HTTP 400 "You are not matched" (NotMatched). -/
inductive SendError
  | invalidInput
  | notMatched
deriving Repr, DecidableEq

/-- Endpoint `send_message` of src/main.py: on success the returned string is
the partner id the message was delivered to. -/
def send_message (s : ServerState) (user_id text : String) :
    ServerState × Except SendError String :=
  let t := pytrim text
  if t = "" then (s, .error .invalidInput)
  else
    match dlookup s.active_pairs user_id with
    | none => (s, .error .notMatched)
    | some partner =>
      ({ s with inbox := inboxAppend s.inbox partner ⟨user_id, t⟩ }, .ok partner)

/-- Endpoint `get_messages` of src/main.py: an unknown user gets the empty
list and no state change; otherwise the pending list is returned and the
inbox entry is reset to the empty list. -/
def get_messages (s : ServerState) (user_id : String) : ServerState × List Message :=
  if dmem s.inbox user_id then
    ({ s with inbox := dinsert s.inbox user_id [] }, (dlookup s.inbox user_id).getD [])
  else (s, [])

/-- Result of `skip` — the code returns either waiting or matched. -/
inductive SkipResult
  | waiting
  | matched (partner_id : String)
deriving Repr, DecidableEq

/-- Endpoint `skip` of src/main.py.  After the dissolution step (unpair plus
`appendleft` of the former partner, guarded by `if partner:`), the user is
re-paired with the head of the queue or enqueued at the tail. -/
def skip_user (s : ServerState) (user_id : String) : ServerState × SkipResult :=
  if user_id ∈ s.waiting_queue then (s, .waiting)
  else
    let s1 :=
      match dlookup s.active_pairs user_id with
      | none => s
      | some partner =>
        let su := unpair s user_id
        if partner = "" then su
        else { su with waiting_queue := partner :: su.waiting_queue }
    let s2 := make_user_if_missing s1 user_id none
    if user_id ∈ s2.waiting_queue then (s2, .waiting)
    else
      match s2.waiting_queue with
      | [] => ({ s2 with waiting_queue := s2.waiting_queue ++ [user_id] }, .waiting)
      | partner :: rest =>
        if partner = user_id then
          ({ s2 with waiting_queue := partner :: rest }, .waiting)
        else
          (pair_two { s2 with waiting_queue := rest } user_id partner, .matched partner)

/-- Endpoint `leave` of src/main.py: queue removal (first occurrence, guarded
by membership), unpair when matched, then drop the inbox and meta
entries.  Always answers the string `left`. -/
def leave (s : ServerState) (user_id : String) : ServerState × String :=
  let s1 := if user_id ∈ s.waiting_queue then
              { s with waiting_queue := s.waiting_queue.erase user_id }
            else s
  let s2 := if dmem s1.active_pairs user_id then unpair s1 user_id else s1
  (({ s2 with inbox := derase s2.inbox user_id, meta := derase s2.meta user_id }), "left")

/-- Result of the read-only `status` endpoint. -/
inductive StatusResult
  | matched (partner_id : String)
  | waitingAt (queue_position : Nat)
  | notConnected
deriving Repr, DecidableEq

/-- Endpoint `status` of src/main.py. -/
def status (s : ServerState) (user_id : String) : StatusResult :=
  match dlookup s.active_pairs user_id with
  | some partner => .matched partner
  | none =>
    if user_id ∈ s.waiting_queue then .waitingAt (s.waiting_queue.indexOf user_id)
    else .notConnected

/-- One external call to the engine, for reachability statements. -/
inductive Op
  | join (user_id : String) (nickname : Option String)
  | send (user_id text : String)
  | getMsgs (user_id : String)
  | skip (user_id : String)
  | leave (user_id : String)
  | stat (user_id : String)

/-- State transition of a single call (the read-only `status` leaves the
state unchanged). -/
def step (s : ServerState) : Op → ServerState
  | .join u n => (join_chat s u n).1
  | .send u t => (send_message s u t).1
  | .getMsgs u => (get_messages s u).1
  | .skip u => (skip_user s u).1
  | .leave u => (leave s u).1
  | .stat _ => s

/-- The state reached from the empty initial state by a call sequence. -/
def runOps (ops : List Op) : ServerState :=
  ops.foldl step initialState

/-! Embedding of src/matcher.py over src/database.py.  The users table is a
list of rows `(user_id, name, interests)` in insertion order; `name` and
`interests` are nullable columns. -/

/-- One row of the sqlite users table. -/
abbrev UserRow := String × Option String × Option String

/-- Function `get_user` of src/database.py: the row whose primary key matches
(`user_id` is the primary key, so at most one row matches). -/
def get_user (db : List UserRow) (user_id : String) : Option UserRow :=
  db.find? (fun r => r.1 == user_id)

/-- Function `get_all_users` of src/database.py: every row, in table order. -/
def get_all_users (db : List UserRow) : List UserRow := db

/-- Constant MAX_MATCH_RESULTS of src/config.py. -/
def MAX_MATCH_RESULTS : Nat := 5

/-- Constant MIN_COMMON_INTERESTS of src/config.py. -/
def MIN_COMMON_INTERESTS : Nat := 1

/-- Function `_parse_interests` of src/matcher.py: split on commas, strip each
part, keep the non-empty ones lowercased, as a set. -/
def parse_interests (interests_str : String) : Finset String :=
  if interests_str = "" then ∅
  else (((((interests_str.splitOn ",").map (fun p => pytrim p)).filter
            (fun p => p != "")).map (fun p => p.toLower))).toFinset

/-- Function `score_common_interests` of src/matcher.py. -/
def score_common_interests (set_a set_b : Finset String) : Nat :=
  (set_a ∩ set_b).card

/-- One candidate dict produced by `find_matches_for_user`; the Python
`common_interests` list is represented by the set it enumerates. -/
structure Candidate where
  user_id : String
  name : Option String
  common_interests : Finset String
  score : Nat
deriving DecidableEq

/-- The Python sort key `(-x["score"], x.get("name") or "")` as a boolean
order on candidates: higher score first, ties broken by name ascending. -/
def candidate_le (a b : Candidate) : Bool :=
  decide (b.score < a.score) ||
    (a.score == b.score && decide ((a.name.getD "") ≤ (b.name.getD "")))

/-- Function `find_matches_for_user` of src/matcher.py. -/
def find_matches_for_user (db : List UserRow) (user_id : String) : List Candidate :=
  match get_user db user_id with
  | none => []
  | some me =>
    let me_interests := parse_interests (me.2.2.getD "")
    let candidates := (get_all_users db).filterMap (fun other =>
      if other.1 = user_id then none
      else
        let other_interests := parse_interests (other.2.2.getD "")
        let score := score_common_interests me_interests other_interests
        if MIN_COMMON_INTERESTS ≤ score then
          some ⟨other.1, other.2.1, me_interests ∩ other_interests, score⟩
        else none)
    (candidates.mergeSort candidate_le).take MAX_MATCH_RESULTS

deriving instance DecidableEq for Except

/-- Concrete state with A and B matched, an empty WaitingQueue and empty
inboxes, as produced by pairing two fresh users. -/
def exPair : ServerState :=
  ⟨[], [("A", "B"), ("B", "A")], [("A", []), ("B", [])],
    [("A", "User-A"), ("B", "User-B")]⟩

/-- Tiny concrete users table used as witness input for the matcher claim. -/
def exDb : List UserRow := [("u1", some "Ann", some "music, chess")]

/-! Basic lemmas about the association-list dictionary operations. -/

theorem dlookup_nil {α : Type} (j : String) : dlookup ([] : List (String × α)) j = none := rfl

theorem dlookup_cons {α : Type} (k₀ : String) (v₀ : α) (rest : List (String × α))
    (j : String) :
    dlookup ((k₀, v₀) :: rest) j = if k₀ = j then some v₀ else dlookup rest j := rfl

theorem dupdate_cons {α : Type} (k₀ : String) (v₀ : α) (rest : List (String × α))
    (k : String) (f : α → α) :
    dupdate ((k₀, v₀) :: rest) k f =
      (if k₀ = k then (k₀, f v₀) else (k₀, v₀)) :: dupdate rest k f := by
  by_cases h : k₀ = k <;> simp [dupdate, h]

theorem derase_cons {α : Type} (k₀ : String) (v₀ : α) (rest : List (String × α))
    (k : String) :
    derase ((k₀, v₀) :: rest) k =
      if k₀ = k then derase rest k else (k₀, v₀) :: derase rest k := by
  by_cases h : k₀ = k <;> simp [derase, List.filter_cons, h]

theorem dlookup_dupdate {α : Type} (d : List (String × α)) (k : String) (f : α → α)
    (j : String) :
    dlookup (dupdate d k f) j = if j = k then (dlookup d k).map f else dlookup d j := by
  induction d with
  | nil => simp [dupdate, dlookup_nil]
  | cons e rest ih =>
    obtain ⟨k₀, v₀⟩ := e
    rw [dupdate_cons]
    by_cases h₀ : k₀ = k
    · subst h₀
      by_cases hj : k₀ = j
      · subst hj
        simp [dlookup_cons]
      · simp [dlookup_cons, hj, Ne.symm hj, ih]
    · by_cases hj : k₀ = j
      · subst hj
        simp [dlookup_cons, h₀, fun h : k₀ = k => h₀ h]
      · simp [dlookup_cons, h₀, hj, ih]

theorem dlookup_append {α : Type} (d₁ d₂ : List (String × α)) (k : String) :
    dlookup (d₁ ++ d₂) k = (dlookup d₁ k).or (dlookup d₂ k) := by
  induction d₁ with
  | nil => simp [dlookup_nil]
  | cons e rest ih =>
    obtain ⟨k₀, v₀⟩ := e
    by_cases h : k₀ = k
    · simp [dlookup_cons, h]
    · simp [dlookup_cons, h, ih]

theorem dlookup_eq_none_of_dmem_false {α : Type} {d : List (String × α)} {k : String}
    (h : ¬ dmem d k = true) : dlookup d k = none := by
  unfold dmem at h
  cases hl : dlookup d k with
  | none => rfl
  | some v => rw [hl] at h; simp at h

theorem dlookup_isSome_of_dmem {α : Type} {d : List (String × α)} {k : String}
    (h : dmem d k = true) : ∃ w, dlookup d k = some w :=
  Option.isSome_iff_exists.mp (by simpa [dmem] using h)

theorem dlookup_dinsert {α : Type} (d : List (String × α)) (k : String) (v : α)
    (j : String) :
    dlookup (dinsert d k v) j = if j = k then some v else dlookup d j := by
  unfold dinsert
  by_cases h : dmem d k
  · obtain ⟨w, hw⟩ := dlookup_isSome_of_dmem h
    simp [h, dlookup_dupdate, hw]
  · have hn : dlookup d k = none := dlookup_eq_none_of_dmem_false h
    by_cases hj : j = k
    · subst hj
      simp [h, dlookup_append, dlookup_cons, dlookup_nil, hn]
    · simp [h, dlookup_append, dlookup_cons, dlookup_nil, hj, Ne.symm hj]

theorem dlookup_inboxAppend (d : List (String × List Message)) (k : String) (m : Message)
    (j : String) :
    dlookup (inboxAppend d k m) j =
      if j = k then some ((dlookup d k).getD [] ++ [m]) else dlookup d j := by
  unfold inboxAppend
  by_cases h : dmem d k
  · obtain ⟨w, hw⟩ := dlookup_isSome_of_dmem h
    simp [h, dlookup_dupdate, hw]
  · have hn : dlookup d k = none := dlookup_eq_none_of_dmem_false h
    by_cases hj : j = k
    · subst hj
      simp [h, dlookup_append, dlookup_cons, dlookup_nil, hn]
    · simp [h, dlookup_append, dlookup_cons, dlookup_nil, hj, Ne.symm hj]

theorem dlookup_derase {α : Type} (d : List (String × α)) (k j : String) :
    dlookup (derase d k) j = if j = k then none else dlookup d j := by
  induction d with
  | nil => simp [derase, dlookup_nil]
  | cons e rest ih =>
    obtain ⟨k₀, v₀⟩ := e
    rw [derase_cons]
    by_cases h₀ : k₀ = k
    · subst h₀
      by_cases hj : k₀ = j
      · subst hj
        simp [dlookup_cons, ih]
      · simp [dlookup_cons, hj, ih]
    · by_cases hj : k₀ = j
      · subst hj
        simp [dlookup_cons, h₀, fun h : k₀ = k => h₀ h]
      · simp [dlookup_cons, h₀, hj, ih]

theorem derase_of_dmem_false {α : Type} {d : List (String × α)} {k : String}
    (h : ¬ dmem d k = true) : derase d k = d := by
  induction d with
  | nil => rfl
  | cons e rest ih =>
    obtain ⟨k₀, v₀⟩ := e
    unfold dmem at h
    rw [dlookup_cons] at h
    by_cases h₀ : k₀ = k
    · rw [if_pos h₀] at h; simp at h
    · rw [if_neg h₀] at h
      rw [derase_cons, if_neg h₀, ih (by simpa [dmem] using h)]

theorem dmem_derase {α : Type} (d : List (String × α)) (k j : String) :
    dmem (derase d k) j = if j = k then false else dmem d j := by
  unfold dmem
  rw [dlookup_derase]
  by_cases hj : j = k <;> simp [hj]

theorem dmem_dinsert {α : Type} (d : List (String × α)) (k : String) (v : α)
    (j : String) :
    dmem (dinsert d k v) j = if j = k then true else dmem d j := by
  unfold dmem
  rw [dlookup_dinsert]
  by_cases hj : j = k <;> simp [hj]

/-! Structural facts about the engine helpers. -/

theorem make_user_waiting_queue (s : ServerState) (u : String) (n : Option String) :
    (make_user_if_missing s u n).waiting_queue = s.waiting_queue := by
  unfold make_user_if_missing
  by_cases h1 : dmem s.inbox u <;> by_cases h2 : dmem s.meta u <;> simp [h1, h2]

theorem make_user_active_pairs (s : ServerState) (u : String) (n : Option String) :
    (make_user_if_missing s u n).active_pairs = s.active_pairs := by
  unfold make_user_if_missing
  by_cases h1 : dmem s.inbox u <;> by_cases h2 : dmem s.meta u <;> simp [h1, h2]

theorem make_user_inbox_lookup (s : ServerState) (u : String) (n : Option String)
    (j : String) (hj : j ≠ u) :
    dlookup (make_user_if_missing s u n).inbox j = dlookup s.inbox j := by
  unfold make_user_if_missing
  by_cases h1 : dmem s.inbox u <;> by_cases h2 : dmem s.meta u <;>
    simp [h1, h2, dlookup_append, dlookup_cons, dlookup_nil, Ne.symm hj]

theorem unpair_waiting_queue (s : ServerState) (u : String) :
    (unpair s u).waiting_queue = s.waiting_queue := by
  unfold unpair
  cases dlookup s.active_pairs u with
  | none => rfl
  | some p => by_cases hp : p = "" <;> simp [hp]

theorem unpair_meta (s : ServerState) (u : String) :
    (unpair s u).meta = s.meta := by
  unfold unpair
  cases dlookup s.active_pairs u with
  | none => rfl
  | some p => by_cases hp : p = "" <;> simp [hp]

theorem unpair_dmem_self (s : ServerState) (u : String) :
    dmem (unpair s u).active_pairs u = false := by
  unfold unpair
  cases hl : dlookup s.active_pairs u with
  | none => simp [dmem, hl]
  | some p => by_cases hp : p = "" <;> simp [hp, dmem_derase]

/-! Claim theorems. -/

/-- C7: starting from the empty state, Join("A") answers waiting; Join("B")
pops A from the queue, pairs A with B and answers matched with partner "A";
afterwards Status("A") answers matched with partner "B". -/
theorem join_join_status_scenario :
    (join_chat initialState "A" none).2 = .waiting
    ∧ (join_chat (join_chat initialState "A" none).1 "B" none).2 = .matched "A"
    ∧ (join_chat (join_chat initialState "A" none).1 "B" none).1.waiting_queue = []
    ∧ dlookup (join_chat (join_chat initialState "A" none).1 "B" none).1.active_pairs "A"
        = some "B"
    ∧ dlookup (join_chat (join_chat initialState "A" none).1 "B" none).1.active_pairs "B"
        = some "A"
    ∧ status (join_chat (join_chat initialState "A" none).1 "B" none).1 "A"
        = .matched "B" := by
  decide

/-- C4 (code bug witnessed): after the reachable call sequence Join(""),
Join("A"), Leave("A"), the PairingTable still maps "" to "A" while "A" is no
longer a key, so the partner mapping is not symmetric.  The cause is the
Python truthiness guard `if partner:` in unpair, which skips removing the
reverse direction when the stored partner id is the empty string. -/
theorem pairing_symmetry_violation :
    dlookup (runOps [.join "" none, .join "A" none, .leave "A"]).active_pairs ""
        = some "A"
    ∧ dmem (runOps [.join "" none, .join "A" none, .leave "A"]).active_pairs "A"
        = false := by
  decide

/-- C3 (code bug witnessed): after the reachable call sequence Join(""),
Join("A"), Leave("A"), Join("A"), Skip(""), the user "A" is simultaneously a
member of the WaitingQueue and a key of the PairingTable, so queue and
pairing membership are not disjoint.  The root cause is the same truthiness
guard as in the symmetry violation: Leave("A") leaves the stale entry
"" → "A" behind, and the later Skip("") requeues "A" while re-pairing. -/
theorem queue_pairing_disjointness_violation :
    "A" ∈ (runOps [.join "" none, .join "A" none, .leave "A", .join "A" none,
        .skip ""]).waiting_queue
    ∧ dmem (runOps [.join "" none, .join "A" none, .leave "A", .join "A" none,
        .skip ""]).active_pairs "A" = true := by
  decide

/-- C5: SendMessage fails with InvalidInput exactly when the trimmed text is
empty, fails with NotMatched exactly when the trimmed text is non-empty and
the sender has no PairingTable entry, and in either failure case the whole
state (queue, pairs, inboxes, registry) is exactly as before the call. -/
theorem send_message_error_spec (s : ServerState) (u t : String) :
    ((send_message s u t).2 = .error .invalidInput ↔ pytrim t = "")
    ∧ ((send_message s u t).2 = .error .notMatched
        ↔ (pytrim t ≠ "" ∧ dmem s.active_pairs u = false))
    ∧ (∀ e, (send_message s u t).2 = .error e → (send_message s u t).1 = s) := by
  unfold send_message
  by_cases ht : pytrim t = ""
  · simp [ht]
  · cases hl : dlookup s.active_pairs u with
    | none => simp [ht, hl, dmem]
    | some p => simp [ht, hl, dmem]

/-- Witness for C5 at a concrete input: an unmatched sender with non-empty
text fails with NotMatched and the state is unchanged. -/
theorem send_message_error_spec_witness :
    (send_message initialState "C" "hi").2 = .error .notMatched
    ∧ (send_message initialState "C" "hi").1 = initialState :=
  ⟨by decide, (send_message_error_spec initialState "C" "hi").2.2 .notMatched (by decide)⟩

/-- C6: GetMessages returns the whole inbox of the user in stored (FIFO) order —
the empty sequence for an unknown user or an empty inbox — and clears it, so
an immediately repeated GetMessages returns the empty sequence. -/
theorem get_messages_drain_spec (s : ServerState) (u : String) :
    (get_messages s u).2 = (dlookup s.inbox u).getD []
    ∧ (get_messages (get_messages s u).1 u).2 = [] := by
  constructor
  · unfold get_messages
    by_cases h : dmem s.inbox u
    · simp [h]
    · simp [h, dlookup_eq_none_of_dmem_false h]
  · unfold get_messages
    by_cases h : dmem s.inbox u
    · simp [h, dmem_dinsert, dlookup_dinsert]
    · simp [h]

/-- C9: for a matched sender, the message appended to the inbox of the partner
carries the trimmed text, with leading and trailing whitespace stripped. -/
theorem send_message_trims_text (s : ServerState) (u t p : String)
    (hp : dlookup s.active_pairs u = some p) (ht : pytrim t ≠ "") :
    dlookup (send_message s u t).1.inbox p =
      some ((dlookup s.inbox p).getD [] ++ [⟨u, pytrim t⟩]) := by
  unfold send_message
  simp [ht, hp, dlookup_inboxAppend]

/-- Witness for C9 at a concrete input: sending " hi " from the matched user
"A" delivers the stripped text "hi" to partner "B". -/
theorem send_message_trims_text_witness :
    dlookup exPair.active_pairs "A" = some "B"
    ∧ pytrim " hi " ≠ ""
    ∧ dlookup (send_message exPair "A" " hi ").1.inbox "B" =
        some ((dlookup exPair.inbox "B").getD [] ++ [⟨"A", pytrim " hi "⟩]) :=
  ⟨by decide, by decide, send_message_trims_text exPair "A" " hi " "B" (by decide) (by decide)⟩

/-! Facts about leave used for the idempotence claim. -/

theorem leave_noop {s : ServerState} {u : String} (hq : u ∉ s.waiting_queue)
    (hp : dmem s.active_pairs u = false) (hi : dmem s.inbox u = false)
    (hm : dmem s.meta u = false) : leave s u = (s, "left") := by
  simp [leave, hq, hp,
    derase_of_dmem_false (show ¬ dmem s.inbox u = true by simp [hi]),
    derase_of_dmem_false (show ¬ dmem s.meta u = true by simp [hm])]

theorem leave_waiting_queue (s : ServerState) (u : String) :
    (leave s u).1.waiting_queue = s.waiting_queue.erase u := by
  by_cases hq : u ∈ s.waiting_queue
  · cases hp : dmem s.active_pairs u
    · simp [leave, hq, hp]
    · simp [leave, hq, hp, unpair_waiting_queue]
  · cases hp : dmem s.active_pairs u
    · simp [leave, hq, hp, List.erase_of_not_mem hq]
    · simp [leave, hq, hp, unpair_waiting_queue, List.erase_of_not_mem hq]

theorem leave_absent_self (s : ServerState) (u : String) :
    dmem (leave s u).1.active_pairs u = false
    ∧ dmem (leave s u).1.inbox u = false
    ∧ dmem (leave s u).1.meta u = false := by
  by_cases hq : u ∈ s.waiting_queue
  · cases hp : dmem s.active_pairs u
    · simp [leave, hq, hp, dmem_derase]
    · simp [leave, hq, hp, unpair_dmem_self, dmem_derase]
  · cases hp : dmem s.active_pairs u
    · simp [leave, hq, hp, dmem_derase]
    · simp [leave, hq, hp, unpair_dmem_self, dmem_derase]

/-- C8: Leave always answers left; Leave of a user absent from all four
structures changes no state; and after a first Leave(u) on a state whose
queue holds u at most once (the queue is duplicate-free in every state the
data model admits), an immediate second Leave(u) answers left again and
changes nothing at all — in particular, for every other user the queue position,
pairing, inbox and registry entry are untouched. -/
theorem leave_idempotent_spec (s : ServerState) (u : String) :
    (leave s u).2 = "left"
    ∧ ((u ∉ s.waiting_queue ∧ dmem s.active_pairs u = false ∧ dmem s.inbox u = false
          ∧ dmem s.meta u = false) → (leave s u).1 = s)
    ∧ (s.waiting_queue.count u ≤ 1 →
        leave ((leave s u).1) u = ((leave s u).1, "left")) := by
  refine ⟨rfl, ?_, ?_⟩
  · rintro ⟨h1, h2, h3, h4⟩
    rw [leave_noop h1 h2 h3 h4]
  · intro hcount
    have habs := leave_absent_self s u
    have hq : u ∉ (leave s u).1.waiting_queue := by
      rw [leave_waiting_queue]
      have h0 : ((s.waiting_queue.erase u).count u) = 0 := by
        rw [List.count_erase_self]
        omega
      exact List.count_eq_zero.mp h0
    exact leave_noop hq habs.1 habs.2.1 habs.2.2

/-- Witness for C8 at a concrete input: a second Leave("A") right after the
first changes nothing and still answers left. -/
theorem leave_idempotent_spec_witness :
    exPair.waiting_queue.count "A" ≤ 1
    ∧ leave ((leave exPair "A").1) "A" = ((leave exPair "A").1, "left") :=
  ⟨by decide, (leave_idempotent_spec exPair "A").2.2 (by decide)⟩

/-- C1 counterexample: in the concrete state where A and B are matched and
the WaitingQueue is empty, Leave("A") leaves B out of the WaitingQueue
altogether, so B is not a member at position 0 as the claim states — the
code never requeues the former partner in leave (only skip does). -/
theorem leave_does_not_requeue_partner_cex :
    dlookup exPair.active_pairs "A" = some "B"
    ∧ "B" ∉ (leave exPair "A").1.waiting_queue := by
  decide

/-- C1 (amended): when u is matched with partner p (p distinct from u and
non-empty), Leave(u) removes both directions from the PairingTable and
appends the fixed system disconnect message to the inbox of p, but does not put p
back into the WaitingQueue: the queue is only changed by erasing u, so if p
was not waiting before, p is in no queue position afterwards. -/
theorem leave_matched_spec (s : ServerState) (u p : String)
    (hlk : dlookup s.active_pairs u = some p) (hpu : p ≠ u) (hpe : p ≠ "") :
    dmem (leave s u).1.active_pairs u = false
    ∧ dmem (leave s u).1.active_pairs p = false
    ∧ dlookup (leave s u).1.inbox p =
        some ((dlookup s.inbox p).getD [] ++ [sysDisconnectMsg])
    ∧ (leave s u).1.waiting_queue = s.waiting_queue.erase u
    ∧ (p ∉ s.waiting_queue → p ∉ (leave s u).1.waiting_queue) := by
  have hdm : dmem s.active_pairs u = true := by simp [dmem, hlk]
  have hL : (leave s u).1 =
      { waiting_queue := if u ∈ s.waiting_queue then s.waiting_queue.erase u
          else s.waiting_queue,
        active_pairs := derase (derase s.active_pairs u) p,
        inbox := derase (inboxAppend s.inbox p sysDisconnectMsg) u,
        meta := derase s.meta u } := by
    by_cases hq : u ∈ s.waiting_queue <;> simp [leave, hq, hdm, unpair, hlk, hpe]
  refine ⟨?_, ?_, ?_, leave_waiting_queue s u, ?_⟩
  · rw [hL]
    simp [dmem_derase, Ne.symm hpu]
  · rw [hL]
    simp [dmem_derase]
  · rw [hL]
    simp [dlookup_derase, dlookup_inboxAppend, hpu]
  · intro hnp hc
    rw [leave_waiting_queue] at hc
    exact hnp (List.mem_of_mem_erase hc)

/-- Witness for the amended C1 at a concrete input: Leave("A") in the state
where A and B are matched and the queue is empty. -/
theorem leave_matched_spec_witness :
    dlookup exPair.active_pairs "A" = some "B"
    ∧ (dmem (leave exPair "A").1.active_pairs "A" = false
       ∧ dmem (leave exPair "A").1.active_pairs "B" = false
       ∧ dlookup (leave exPair "A").1.inbox "B" =
           some ((dlookup exPair.inbox "B").getD [] ++ [sysDisconnectMsg])
       ∧ (leave exPair "A").1.waiting_queue = exPair.waiting_queue.erase "A"
       ∧ ("B" ∉ exPair.waiting_queue → "B" ∉ (leave exPair "A").1.waiting_queue)) :=
  ⟨by decide, leave_matched_spec exPair "A" "B" (by decide) (by decide) (by decide)⟩

theorem make_user_inbox_of_dmem (s : ServerState) (w : String) (n : Option String)
    (h : dmem s.inbox w = true) : (make_user_if_missing s w n).inbox = s.inbox := by
  unfold make_user_if_missing
  by_cases h2 : dmem s.meta w <;> simp [h, h2]

theorem dmem_inboxAppend_self (d : List (String × List Message)) (k : String)
    (m : Message) : dmem (inboxAppend d k m) k = true := by
  simp [dmem, dlookup_inboxAppend]

theorem pair_two_waiting_queue (s : ServerState) (a b : String) :
    (pair_two s a b).waiting_queue = s.waiting_queue := by
  simp [pair_two, make_user_waiting_queue]

theorem pair_two_active_pairs (s : ServerState) (a b : String) :
    (pair_two s a b).active_pairs = dinsert (dinsert s.active_pairs a b) b a := by
  simp [pair_two, make_user_active_pairs]

theorem pair_two_inbox_lookup (s : ServerState) (a b : String) (j : String)
    (hja : j ≠ a) (hjb : dmem s.inbox j = true ∨ j ≠ b) :
    dlookup (pair_two s a b).inbox j = dlookup s.inbox j := by
  unfold pair_two
  by_cases hb : j = b
  · subst hb
    rcases hjb with hj | hj
    · have h1 : dlookup (make_user_if_missing
          { s with active_pairs := dinsert (dinsert s.active_pairs a j) j a } a none).inbox j =
          dlookup s.inbox j := by
        rw [make_user_inbox_lookup _ _ _ _ hja]
      have h2 : dmem (make_user_if_missing
          { s with active_pairs := dinsert (dinsert s.active_pairs a j) j a } a none).inbox j
          = true := by
        simp [dmem, h1]
        have := dlookup_isSome_of_dmem hj
        obtain ⟨w, hw⟩ := this
        simp [hw]
      rw [make_user_inbox_of_dmem _ _ _ h2, h1]
    · exact absurd rfl hj
  · rw [make_user_inbox_lookup _ _ _ _ hb, make_user_inbox_lookup _ _ _ _ hja]

/-- C2 counterexample: in the concrete state where A and B are matched and
the WaitingQueue is empty, Skip("A") does not answer waiting and does not
leave B in the queue: the re-pair step immediately pops the just-requeued B
and matches A with B again. -/
theorem skip_rematches_partner_cex :
    dlookup exPair.active_pairs "A" = some "B"
    ∧ (skip_user exPair "A").2 ≠ SkipResult.waiting
    ∧ "B" ∉ (skip_user exPair "A").1.waiting_queue := by
  decide

/-- C2 (amended): when u is matched with b (b distinct from u, non-empty)
and the WaitingQueue is empty, Skip(u) appends the system disconnect message
to the inbox of b and transiently places b at the queue head, but the immediate
re-pair attempt pops b again: the call answers matched with partner b, both
pairing directions are re-established, and the final queue is empty. -/
theorem skip_matched_empty_queue_spec (s : ServerState) (u b : String)
    (hq : s.waiting_queue = []) (hlk : dlookup s.active_pairs u = some b)
    (hbu : b ≠ u) (hbe : b ≠ "") :
    (skip_user s u).2 = .matched b
    ∧ (skip_user s u).1.waiting_queue = []
    ∧ dlookup (skip_user s u).1.inbox b =
        some ((dlookup s.inbox b).getD [] ++ [sysDisconnectMsg])
    ∧ dlookup (skip_user s u).1.active_pairs u = some b
    ∧ dlookup (skip_user s u).1.active_pairs b = some u := by
  have hsu : (unpair s u).waiting_queue = [] := by rw [unpair_waiting_queue, hq]
  have hinb : (unpair s u).inbox = inboxAppend s.inbox b sysDisconnectMsg := by
    simp [unpair, hlk, hbe]
  have hstep : skip_user s u =
      (pair_two { make_user_if_missing { unpair s u with waiting_queue := [b] } u none
          with waiting_queue := [] } u b, .matched b) := by
    simp [skip_user, hq, hlk, hbe, hbu, Ne.symm hbu, make_user_waiting_queue, hsu]
  refine ⟨by rw [hstep], ?_, ?_, ?_, ?_⟩
  · rw [hstep]
    simp [pair_two_waiting_queue]
  · rw [hstep]
    have hb1 : dlookup (make_user_if_missing { unpair s u with waiting_queue := [b] }
        u none).inbox b = some ((dlookup s.inbox b).getD [] ++ [sysDisconnectMsg]) := by
      rw [make_user_inbox_lookup _ _ _ _ hbu]
      simp [hinb, dlookup_inboxAppend]
    have hdm : dmem (make_user_if_missing { unpair s u with waiting_queue := [b] }
        u none).inbox b = true := by
      simp [dmem, hb1]
    rw [pair_two_inbox_lookup
      ({ make_user_if_missing { unpair s u with waiting_queue := [b] } u none
          with waiting_queue := [] }) u b b hbu (Or.inl hdm)]
    exact hb1
  · rw [hstep]
    simp [pair_two_active_pairs, dlookup_dinsert, Ne.symm hbu]
  · rw [hstep]
    simp [pair_two_active_pairs, dlookup_dinsert]

/-- Witness for the amended C2 at a concrete input: Skip("A") in the state
where A and B are matched and the queue is empty re-matches A with B. -/
theorem skip_matched_empty_queue_spec_witness :
    exPair.waiting_queue = []
    ∧ dlookup exPair.active_pairs "A" = some "B"
    ∧ ((skip_user exPair "A").2 = .matched "B"
       ∧ (skip_user exPair "A").1.waiting_queue = []
       ∧ dlookup (skip_user exPair "A").1.inbox "B" =
           some ((dlookup exPair.inbox "B").getD [] ++ [sysDisconnectMsg])
       ∧ dlookup (skip_user exPair "A").1.active_pairs "A" = some "B"
       ∧ dlookup (skip_user exPair "A").1.active_pairs "B" = some "A") :=
  ⟨by decide, by decide,
    skip_matched_empty_queue_spec exPair "A" "B" (by decide) (by decide) (by decide)
      (by decide)⟩

/-! Order facts about the candidate sort key. -/

theorem candidate_le_iff (a b : Candidate) :
    candidate_le a b = true ↔
      (b.score < a.score ∨ (a.score = b.score ∧ (a.name.getD "") ≤ (b.name.getD ""))) := by
  simp [candidate_le]

theorem candidate_le_trans (a b c : Candidate) (hab : candidate_le a b = true)
    (hbc : candidate_le b c = true) : candidate_le a c = true := by
  rw [candidate_le_iff] at hab hbc ⊢
  rcases hab with h1 | ⟨h1, hn1⟩ <;> rcases hbc with h2 | ⟨h2, hn2⟩
  · exact Or.inl (lt_trans h2 h1)
  · exact Or.inl (h2 ▸ h1)
  · exact Or.inl (h1 ▸ h2)
  · exact Or.inr ⟨h1.trans h2, le_trans hn1 hn2⟩

theorem candidate_le_total (a b : Candidate) :
    (candidate_le a b || candidate_le b a) = true := by
  rw [Bool.or_eq_true, candidate_le_iff, candidate_le_iff]
  rcases Nat.lt_trichotomy a.score b.score with h | h | h
  · exact Or.inr (Or.inl h)
  · rcases le_total (a.name.getD "") (b.name.getD "") with hn | hn
    · exact Or.inl (Or.inr ⟨h, hn⟩)
    · exact Or.inr (Or.inr ⟨h.symm, hn⟩)
  · exact Or.inl (Or.inl h)

/-- C10: find_matches_for_user returns the empty list for an unknown user,
never returns the queried user themselves, returns only candidates built
from a database row whose normalized (comma-split, trimmed, lowercased)
interests share at least MIN_COMMON_INTERESTS entries with the queried
interests of the queried user, returns them sorted by descending score with ties broken by
ascending name, and returns at most MAX_MATCH_RESULTS of them. -/
theorem find_matches_for_user_spec (db : List UserRow) (uid : String) :
    (get_user db uid = none → find_matches_for_user db uid = [])
    ∧ (∀ c ∈ find_matches_for_user db uid, c.user_id ≠ uid)
    ∧ (∀ c ∈ find_matches_for_user db uid,
        MIN_COMMON_INTERESTS ≤ c.score
        ∧ ∃ me, get_user db uid = some me
            ∧ ∃ r ∈ db, r.1 = c.user_id ∧ c.name = r.2.1
                ∧ c.common_interests =
                    parse_interests (me.2.2.getD "") ∩ parse_interests (r.2.2.getD "")
                ∧ c.score = score_common_interests (parse_interests (me.2.2.getD ""))
                    (parse_interests (r.2.2.getD "")))
    ∧ List.Pairwise (fun a b => b.score < a.score
        ∨ (a.score = b.score ∧ (a.name.getD "") ≤ (b.name.getD "")))
        (find_matches_for_user db uid)
    ∧ (find_matches_for_user db uid).length ≤ MAX_MATCH_RESULTS := by
  cases hme : get_user db uid with
  | none =>
    have h0 : find_matches_for_user db uid = [] := by
      unfold find_matches_for_user
      rw [hme]
    refine ⟨fun _ => h0, ?_, ?_, ?_, ?_⟩
    · intro c hc
      rw [h0] at hc
      exact absurd hc (List.not_mem_nil c)
    · intro c hc
      rw [h0] at hc
      exact absurd hc (List.not_mem_nil c)
    · rw [h0]
      exact List.Pairwise.nil
    · rw [h0]
      simp [MAX_MATCH_RESULTS]
  | some me =>
    have hres : find_matches_for_user db uid =
        ((db.filterMap (fun other =>
          if other.1 = uid then none
          else
            if MIN_COMMON_INTERESTS ≤ score_common_interests
                (parse_interests (me.2.2.getD "")) (parse_interests (other.2.2.getD "")) then
              some ⟨other.1, other.2.1,
                parse_interests (me.2.2.getD "") ∩ parse_interests (other.2.2.getD ""),
                score_common_interests (parse_interests (me.2.2.getD ""))
                  (parse_interests (other.2.2.getD ""))⟩
            else none)).mergeSort candidate_le).take MAX_MATCH_RESULTS := by
      unfold find_matches_for_user
      rw [hme]
      rfl
    have hmm : ∀ c ∈ find_matches_for_user db uid,
        c ∈ db.filterMap (fun other =>
          if other.1 = uid then none
          else
            if MIN_COMMON_INTERESTS ≤ score_common_interests
                (parse_interests (me.2.2.getD "")) (parse_interests (other.2.2.getD "")) then
              some ⟨other.1, other.2.1,
                parse_interests (me.2.2.getD "") ∩ parse_interests (other.2.2.getD ""),
                score_common_interests (parse_interests (me.2.2.getD ""))
                  (parse_interests (other.2.2.getD ""))⟩
            else none) := by
      intro c hc
      rw [hres] at hc
      exact ((List.mergeSort_perm _ candidate_le).mem_iff).mp (List.mem_of_mem_take hc)
    have hsrc : ∀ c ∈ find_matches_for_user db uid,
        MIN_COMMON_INTERESTS ≤ c.score ∧ c.user_id ≠ uid
        ∧ ∃ r ∈ db, r.1 = c.user_id ∧ c.name = r.2.1
            ∧ c.common_interests =
                parse_interests (me.2.2.getD "") ∩ parse_interests (r.2.2.getD "")
            ∧ c.score = score_common_interests (parse_interests (me.2.2.getD ""))
                (parse_interests (r.2.2.getD "")) := by
      intro c hc
      obtain ⟨r, hr, hfr⟩ := List.mem_filterMap.mp (hmm c hc)
      by_cases h1 : r.1 = uid
      · simp [h1] at hfr
      · by_cases h2 : MIN_COMMON_INTERESTS ≤ score_common_interests
            (parse_interests (me.2.2.getD "")) (parse_interests (r.2.2.getD ""))
        · rw [if_neg h1, if_pos h2] at hfr
          obtain rfl := Option.some.inj hfr
          exact ⟨h2, h1, r, hr, rfl, rfl, rfl, rfl⟩
        · rw [if_neg h1, if_neg h2] at hfr
          exact absurd hfr (Option.noConfusion)
    refine ⟨?_, ?_, ?_, ?_, ?_⟩
    · intro h
      exact Option.noConfusion h
    · intro c hc
      exact (hsrc c hc).2.1
    · intro c hc
      obtain ⟨hmin, _, r, hr, h3, h4, h5, h6⟩ := hsrc c hc
      exact ⟨hmin, me, rfl, r, hr, h3, h4, h5, h6⟩
    · rw [hres]
      exact List.Pairwise.imp (fun hab => (candidate_le_iff _ _).mp hab)
        (List.Pairwise.sublist (List.take_sublist _ _)
          (List.sorted_mergeSort candidate_le_trans candidate_le_total _))
    · rw [hres]
      exact List.length_take_le _ _

/-- Witness for C10 at a concrete input: an unknown user gets no matches. -/
theorem find_matches_for_user_spec_witness :
    get_user exDb "zz" = none ∧ find_matches_for_user exDb "zz" = [] :=
  ⟨by decide, (find_matches_for_user_spec exDb "zz").1 (by decide)⟩
